import Mathlib

/-!
Verification development for the "Paginated Projection Exporter" described in
the repository's guides (src/example-fixes.js and the accompanying markdown
documents about the Vercel FUNCTION_RESPONSE_PAYLOAD_TOO_LARGE error).

The embedding models:
* JSON-like values (`Value`) and `JSON.stringify` together with UTF-8 byte
  length (`Buffer.byteLength(json, 'utf8')`), from `checkResponseSize`
  (src/example-fixes.js lines 287-299);
* offset pagination and the `hasMore` heuristic, from
  `handler_good_example_1` (lines 20-40) and `handler` (lines 314-376);
* field projection, from `handler_good_example_2` (lines 58-78);
* the exporter operations `fetchPage` / `estimateSize` of the specification,
  which generalize those snippets.
-/

/-- JSON-like values, the data model for records: an arbitrary mapping from
field name to value. Numbers are modelled as integers (every number the
examples serialize — ids, counts, page numbers — is an integer produced by
`parseInt` or a collection count). -/
inductive Value where
  | null : Value
  | bool (b : Bool) : Value
  | num (n : Int) : Value
  | str (s : String) : Value
  | arr (elems : List Value) : Value
  | obj (fields : List (String × Value)) : Value
deriving Repr

/-- A record is a mapping from field name to value (spec §3: "an arbitrary
mapping from field name to value"); modelled as an association list. -/
abbrev Record := List (String × Value)

/-- UTF-8 byte length of a character sequence: the model of
`Buffer.byteLength(s, 'utf8')` from src/example-fixes.js line 289. -/
def utf8Len : List Char → Nat
  | [] => 0
  | c :: cs => c.utf8Size + utf8Len cs

/-- Lowercase hex digit, used by the `\u00XX` escapes of `JSON.stringify`. -/
def hexDigit (n : Nat) : Char :=
  if n < 10 then Char.ofNat (48 + n) else Char.ofNat (87 + n)

/-- Two-character escape sequence: a backslash followed by a marker. -/
def slashEsc (m : Char) : List Char := ['\\', m]

/-- Short escape marker for the named control characters, when one exists
(backspace, tab, newline, form feed, carriage return). -/
def shortEscMarker (c : Char) : Option Char :=
  if c = '\n' then some 'n'
  else if c = '\t' then some 't'
  else if c = '\r' then some 'r'
  else if c = '\x08' then some 'b'
  else if c = '\x0c' then some 'f'
  else none

/-- Escaping by JSON.stringify of one character inside a string literal:
quote and backslash get a two-character escape, the named control characters
get their short escapes, the remaining control characters get `\u00XX`, and
every other character is passed through. -/
def escChar (c : Char) : List Char :=
  if c = '"' ∨ c = '\\' then slashEsc c
  else
    match shortEscMarker c with
    | some m => slashEsc m
    | none =>
      if c.toNat < 32 then
        slashEsc 'u' ++ ['0', '0', hexDigit (c.toNat / 16), hexDigit (c.toNat % 16)]
      else [c]

/-- Escape a whole character sequence for a JSON string literal. -/
def escapeList : List Char → List Char
  | [] => []
  | c :: cs => escChar c ++ escapeList cs

mutual

/-- Model of JSON.stringify (no spacing argument, as in the source), producing the
serialized character sequence. -/
def stringify : Value → List Char
  | .null => "null".data
  | .bool b => (cond b "true" "false").data
  | .num n => (toString n).data
  | .str s => ('"' :: escapeList s.data) ++ ['"']
  | .arr l => ('[' :: stringifySep l) ++ [']']
  | .obj fs => ('{' :: stringifyFields fs) ++ ['}']

/-- Comma-separated serialization of array elements. -/
def stringifySep : List Value → List Char
  | [] => []
  | v :: vs => stringify v ++ sepTail vs

/-- The remaining array elements, each preceded by a comma. -/
def sepTail : List Value → List Char
  | [] => []
  | v :: vs => ',' :: (stringify v ++ sepTail vs)

/-- One object field, serialized as `"key":value`. -/
def fieldChars : String × Value → List Char
  | fv => '"' :: (escapeList fv.1.data ++ '"' :: ':' :: stringify fv.2)

/-- Comma-separated serialization of object fields. -/
def stringifyFields : List (String × Value) → List Char
  | [] => []
  | fv :: fs => fieldChars fv ++ fieldsTail fs

/-- The remaining object fields, each preceded by a comma. -/
def fieldsTail : List (String × Value) → List Char
  | [] => []
  | fv :: fs => ',' :: (fieldChars fv ++ fieldsTail fs)

end

mutual

/-- Structural equality of JSON values, modelling the `==` used by the
equality filters (`.where('field', '==', value)`). -/
def Value.beq : Value → Value → Bool
  | .null, .null => true
  | .bool a, .bool b => a == b
  | .num a, .num b => a == b
  | .str a, .str b => a == b
  | .arr a, .arr b => beqList a b
  | .obj a, .obj b => beqFields a b
  | _, _ => false

/-- Elementwise equality of value lists. -/
def beqList : List Value → List Value → Bool
  | [], [] => true
  | v :: vs, w :: ws => Value.beq v w && beqList vs ws
  | _, _ => false

/-- Elementwise equality of field lists. -/
def beqFields : List (String × Value) → List (String × Value) → Bool
  | [], [] => true
  | fv :: vs, gw :: ws => fv.1 == gw.1 && Value.beq fv.2 gw.2 && beqFields vs ws
  | _, _ => false

end

/-- The backing source: a stable, caller-ordered collection of records
(spec §6: records are returned "in a stable, caller-defined order", so the
source is modelled as the ordered list of its records). -/
structure Source where
  data : List Record

/-- The records of the source matching all equality filters, in source
order; models the server-side pushed-down `.where('field', '==', value)`
clauses of handler_good_example_3 and handler (src/example-fixes.js
lines 94-101 and 329-337). -/
def matching (src : Source) (filters : List (String × Value)) : List Record :=
  src.data.filter fun r =>
    filters.all fun fv => (List.lookup fv.1 r).any fun w => Value.beq w fv.2

/-- The operation countMatching(filters) of the spec: the number of matching
records, as obtained from `totalSnapshot.size` in handler
(src/example-fixes.js lines 357-359). -/
def countMatching (src : Source) (filters : List (String × Value)) : Nat :=
  (matching src filters).length

/-- The operation fetchSlice(filters, offset, limit) of the spec: the
`.offset(offset).limit(limit)` query of handler_good_example_1 and handler
(src/example-fixes.js lines 24-27 and 329-333) — skip `offset` matching
records, return at most `limit` of the rest, in source order. -/
def fetchSlice (src : Source) (filters : List (String × Value))
    (offset limit : Nat) : List Record :=
  ((matching src filters).drop offset).take limit

/-- One entry of a projection spec: a field name to retain, optionally with
a length to truncate string values to (spec §3 ProjectionSpec; the truncation
models `data.description?.substring(0, 200)` of src/example-fixes.js
line 72). -/
structure FieldSpec where
  field : String
  truncateTo : Option Nat

/-- ProjectionSpec (spec §3): the list of fields to retain. -/
abbrev ProjectionSpec := List FieldSpec

/-- Truncate a string value to its first `n` characters
(`.substring(0, n)`); other values are passed through unchanged. -/
def truncateValue (n : Nat) : Value → Value
  | .str s => .str (String.mk (s.data.take n))
  | v => v

/-- Apply the optional per-field transform of a FieldSpec. -/
def applyFieldSpec (fs : FieldSpec) (v : Value) : Value :=
  match fs.truncateTo with
  | none => v
  | some n => truncateValue n v

/-- Field projection: copy only the listed fields out of a record, applying
the optional per-field truncation; fields of the record that are not listed
are dropped, and listed fields absent from the record produce no entry
(JSON serialization drops `undefined`-valued keys). Embeds the explicit
field-copying pattern of handler_good_example_2 (src/example-fixes.js
lines 65-75), generalized to a caller-supplied field list as in spec §4.1. -/
def applyProjection (ps : ProjectionSpec) (r : Record) : Record :=
  ps.filterMap fun fs =>
    (List.lookup fs.field r).map fun v => (fs.field, applyFieldSpec fs v)

/-- Error taxonomy of spec §7. `SourceUnavailable` is never produced by the
list-backed source model (a list always answers); it is kept for the
taxonomy. -/
inductive ExporterError where
  | InvalidRequest
  | SourceUnavailable
deriving Repr, DecidableEq

/-- Modelled from the spec: the implementation-configured hard cap on
`pageSize` ("cap defaults to 200"); no cap exists anywhere in
src/example-fixes.js, so the configuration is taken from spec §4.1. -/
structure ExporterConfig where
  cap : Nat

/-- The default configuration, cap 200 (spec §4.1). -/
def defaultConfig : ExporterConfig := ⟨200⟩

/-- PageRequest (spec §3), offset mode: page number, page size and equality
filters. Cursor mode is outside this model. The HTTP glue that parses and
coerces query strings (spec §6) is out of scope; the request carries the
already-coerced integers. -/
structure PageRequest where
  page : Nat
  pageSize : Nat
  filters : List (String × Value)

/-- PageResult (spec §3): the projected items, the echoed page and pageSize,
the hasMore flag and the optional total count, as serialized by
handler_good_example_1 (items/page/limit/hasMore, src/example-fixes.js
lines 34-39) and handler (total, lines 361-370). -/
structure PageResult where
  items : List Record
  page : Nat
  pageSize : Nat
  hasMore : Bool
  totalCount : Option Nat

/-- The operation fetchPage(source, pageRequest, projectionSpec) of spec §4.1, offset
mode. The validation (non-positive page or pageSize, pageSize above the cap
→ `InvalidRequest`) is modelled from the spec — no snippet in
src/example-fixes.js validates its parameters. The successful path embeds
handler_good_example_1 (src/example-fixes.js lines 20-40): offset
`(page - 1) * pageSize` (line 22), an `.offset().limit()` fetch (lines
24-27), per-record projection (generalizing lines 29-32 and 65-75), and
`hasMore` as `snapshot.size === parseInt(limit)` (line 38); `totalCount`
comes from the total snapshot of handler (lines 357-366). -/
def fetchPage (cfg : ExporterConfig) (src : Source) (req : PageRequest)
    (proj : ProjectionSpec) : Except ExporterError PageResult :=
  if req.page = 0 ∨ req.pageSize = 0 then .error .InvalidRequest
  else if cfg.cap < req.pageSize then .error .InvalidRequest
  else
    let offset := (req.page - 1) * req.pageSize
    let fetched := fetchSlice src req.filters offset req.pageSize
    .ok { items := fetched.map (applyProjection proj),
          page := req.page,
          pageSize := req.pageSize,
          hasMore := fetched.length == req.pageSize,
          totalCount := some (countMatching src req.filters) }

/-- SizeEstimate (spec §3): byte size, configured threshold, overage flag. -/
structure SizeEstimate where
  byteSize : Nat
  thresholdBytes : Nat
  exceeded : Bool
deriving Repr, DecidableEq

/-- The default threshold in bytes of the size check. `checkResponseSize`
(src/example-fixes.js lines 287-299) computes
`sizeInMB = sizeInBytes / (1024 * 1024)` and warns when `sizeInMB > 4.5`;
dividing by 2^20 and comparing with 4.5 are both exact in IEEE doubles for
any byte count below 2^53, so the test is exactly
`sizeInBytes > 4.5 * 2^20 = 4718592`. -/
def defaultThresholdBytes : Nat := 4718592

/-- Size estimation with an explicit threshold (spec §4.1: `thresholdBytes`
is configurable): serialize, measure the UTF-8 byte length
(`Buffer.byteLength(JSON.stringify(data), 'utf8')`, src/example-fixes.js
lines 288-289), and compare against the threshold. -/
def estimateSizeWith (threshold : Nat) (data : Value) : SizeEstimate :=
  let n := utf8Len (stringify data)
  { byteSize := n, thresholdBytes := threshold, exceeded := decide (threshold < n) }

/-- The operation estimateSize(result) of spec §4.1 at the default threshold, embedding
`checkResponseSize` (src/example-fixes.js lines 287-299). -/
def estimateSize (data : Value) : SizeEstimate :=
  estimateSizeWith defaultThresholdBytes data

/-- A projected record, serialized as a JSON object. -/
def recordToValue (r : Record) : Value := .obj r

/-- The JSON value `res.json` serializes for a PageResult: the
`{ items, page, limit, hasMore }` body of handler_good_example_1
(src/example-fixes.js lines 34-39), with the optional total of handler
(line 366). -/
def pageResultToValue (pr : PageResult) : Value :=
  .obj (("items", .arr (pr.items.map recordToValue)) ::
        ("page", .num (pr.page : Int)) ::
        ("limit", .num (pr.pageSize : Int)) ::
        ("hasMore", .bool pr.hasMore) ::
        (match pr.totalCount with
         | none => []
         | some n => [("total", .num (n : Int))]))

/-- The JavaScript runtime error relevant to the projection snippets:
calling a method on a value that lacks it. -/
inductive JsError where
  | typeError
deriving Repr, DecidableEq

/-- The shape built per record by handler_good_example_2
(src/example-fixes.js lines 67-74): each field holds the looked-up value or
is `undefined` (modelled as `none`) when the backing record lacks it. -/
structure ListingItem where
  id : Value
  name : Option Value
  category : Option Value
  imageUrl : Option Value
  shortDescription : Option Value

/-- Model of x?.substring(0, 200) (src/example-fixes.js line 72): optional chaining
yields `undefined` when the receiver is `undefined` or `null`; a string is
truncated to its first 200 characters; any other receiver has no
`substring` method and raises a TypeError. -/
def jsOptionalSubstring : Option Value → Except JsError (Option Value)
  | none => .ok none
  | some .null => .ok none
  | some (.str s) => .ok (some (.str (String.mk (s.data.take 200))))
  | some _ => .error .typeError

/-- The per-record mapping of handler_good_example_2 (src/example-fixes.js
lines 65-75): copy id, name, category and imageUrl, and a truncated
shortDescription; base64Image, fullDescription and pdfData are never read. -/
def goodExample2Item (docId : String) (data : Record) :
    Except JsError ListingItem := do
  let sd ← jsOptionalSubstring (List.lookup "description" data)
  .ok { id := .str docId,
        name := List.lookup "name" data,
        category := List.lookup "category" data,
        imageUrl := List.lookup "imageUrl" data,
        shortDescription := sd }

/-- The response shape of handler_good_example_1 (src/example-fixes.js
lines 34-39). -/
structure Example1Response where
  items : List Record
  page : Nat
  limit : Nat
  hasMore : Bool

/-- Direct embedding of the pagination core of handler_good_example_1
(src/example-fixes.js lines 20-40) over an ordered backing collection:
`offset = (page - 1) * limit`, an `.offset().limit()` fetch, and
`hasMore: snapshot.size === parseInt(limit)`. The `{id, ...data}` document
spread is modelled by a preprocessed collection of records. -/
def handler_good_example_1 (collection : List Record) (page limit : Nat) :
    Example1Response :=
  let offset := (page - 1) * limit
  let snapshot := (collection.drop offset).take limit
  { items := snapshot, page := page, limit := limit,
    hasMore := snapshot.length == limit }

/-- The different hasMore computation of the complete handler
(src/example-fixes.js line 368): `page * limit < total`, based on the total
count rather than on the fetched count. -/
def handlerHasMore (page limit total : Nat) : Bool :=
  decide (page * limit < total)

/-- The page-collection loop of spec §8: fetch pages from a starting page
onward, concatenating the items, and stop at the first page whose
`hasMore` is false (or on a validation error, which the loop surfaces as an
empty tail). `fuel` bounds the number of pages visited. -/
def collectPages (cfg : ExporterConfig) (src : Source)
    (filters : List (String × Value)) (proj : ProjectionSpec)
    (pageSize : Nat) : Nat → Nat → List Record
  | 0, _ => []
  | fuel + 1, page =>
    match fetchPage cfg src ⟨page, pageSize, filters⟩ proj with
    | .error _ => []
    | .ok r =>
      if r.hasMore then
        r.items ++ collectPages cfg src filters proj pageSize fuel (page + 1)
      else r.items

/-- Concatenate every page from `page = 1` until `hasMore = false`
(spec §8 "Pagination coverage"); `countMatching + 1` pages always suffice to
reach the terminating page. -/
def fetchAllPages (cfg : ExporterConfig) (src : Source)
    (filters : List (String × Value)) (proj : ProjectionSpec)
    (pageSize : Nat) : List Record :=
  collectPages cfg src filters proj pageSize (countMatching src filters + 1) 1

/-- A four-record demo collection for concrete witnesses. -/
def demoSource : Source :=
  ⟨[[("id", .num 1)], [("id", .num 2)], [("id", .num 3)], [("id", .num 4)]]⟩

/-- A projection keeping only the id field, for concrete witnesses. -/
def demoProj : ProjectionSpec := [⟨"id", none⟩]

/-- The second page of `demoSource` at pageSize 2: the final page, exactly
matching the page size. -/
def demoPage2 : PageResult :=
  { items := [[("id", .num 3)], [("id", .num 4)]], page := 2, pageSize := 2,
    hasMore := true, totalCount := some 4 }

/-- The projection spec of the spec §8 scenario: keep `name` and
`imageUrl`. -/
def demoProjection : ProjectionSpec := [⟨"name", none⟩, ⟨"imageUrl", none⟩]

/-- The record of the spec §8 scenario: a name, a huge inline image and an
image URL. -/
def demoRecord : Record :=
  [("name", .str "x"), ("image", .str "hugebase64payload"),
   ("imageUrl", .str "https://cdn.example/x.jpg")]

/-- An active record, matched by the status filter. -/
def demoActive : Record := [("id", .num 1), ("status", .str "active")]

/-- An archived record, rejected by the status filter. -/
def demoArchived : Record := [("id", .num 2), ("status", .str "archived")]

/-- A source holding only the active record. -/
def demoSrcA : Source := ⟨[demoActive]⟩

/-- A source holding the active record plus an archived one. -/
def demoSrcB : Source := ⟨[demoActive, demoArchived]⟩

/-- The status equality filter of the demo. -/
def demoFilter : List (String × Value) := [("status", .str "active")]

/-- A backing record with no description field. -/
def demoNoDescription : Record :=
  [("name", .str "Keys"), ("imageUrl", .str "https://cdn.example/keys.jpg")]

/-- A string value of `n` repeated `'a'` characters, used to build concrete
payloads of an exact serialized size (its serialization is the `n`
characters between two quotes, `n + 2` bytes). -/
def bigString (n : Nat) : Value := .str (String.mk (List.replicate n 'a'))

-- ===========================================================================
-- Theorems
-- ===========================================================================

theorem utf8Len_append (a b : List Char) :
    utf8Len (a ++ b) = utf8Len a + utf8Len b := by
  induction a with
  | nil => simp [utf8Len]
  | cons c cs ih => simp [utf8Len, ih]; omega

/-- Every entry of a projected record takes its field name from the
projection spec. -/
theorem mem_applyProjection_field {ps : ProjectionSpec} {r : Record}
    {fv : String × Value} (h : fv ∈ applyProjection ps r) :
    fv.1 ∈ ps.map FieldSpec.field := by
  simp only [applyProjection, List.mem_filterMap] at h
  obtain ⟨fs, hfs, hmap⟩ := h
  obtain ⟨a, _, hav⟩ := Option.map_eq_some'.mp hmap
  exact List.mem_map.mpr ⟨fs, hfs, by rw [← hav]⟩

/-- Claim C1: a page request whose pageSize exceeds the configured cap fails
with InvalidRequest and yields no PageResult; in particular pageSize 500
against cap 200. -/
theorem fetchPage_over_cap_invalidRequest (cfg : ExporterConfig)
    (src : Source) (req : PageRequest) (proj : ProjectionSpec)
    (h : cfg.cap < req.pageSize) :
    fetchPage cfg src req proj = .error .InvalidRequest := by
  unfold fetchPage
  by_cases h0 : req.page = 0 ∨ req.pageSize = 0
  · rw [if_pos h0]
  · rw [if_neg h0, if_pos h]

/-- Witness for C1: pageSize 500 against the default cap 200. -/
theorem fetchPage_over_cap_invalidRequest_witness :
    defaultConfig.cap < 500 ∧
      fetchPage defaultConfig demoSource ⟨1, 500, []⟩ demoProj =
        .error .InvalidRequest :=
  ⟨by decide,
   fetchPage_over_cap_invalidRequest defaultConfig demoSource ⟨1, 500, []⟩
     demoProj (by decide)⟩

/-- Claim C2: in offset mode, a successful fetchPage reports hasMore
exactly when the number of records fetched for the page equals pageSize
(the heuristic of src/example-fixes.js line 38), including on a final page
that exactly matches pageSize. -/
theorem fetchPage_hasMore_iff (cfg : ExporterConfig) (src : Source)
    (req : PageRequest) (proj : ProjectionSpec) (r : PageResult)
    (h : fetchPage cfg src req proj = .ok r) :
    r.hasMore = true ↔ r.items.length = req.pageSize := by
  unfold fetchPage at h
  split at h
  · simp at h
  · split at h
    · simp at h
    · simp only [Except.ok.injEq] at h
      subst h
      simp [List.length_map]

/-- Witness for C2: the final page of the four-record demo collection at
pageSize 2 fetches exactly 2 records, so hasMore is reported true even
though no further page exists. -/
theorem fetchPage_hasMore_iff_witness : demoPage2.hasMore = true :=
  (fetchPage_hasMore_iff defaultConfig demoSource ⟨2, 2, []⟩ demoProj
    demoPage2 (by rfl)).mpr (by rfl)

/-- Claim C4: projection only ever emits fields listed in the projection
spec, and projecting the name/imageUrl spec onto a record that also carries
an inline image yields exactly the name and imageUrl fields. -/
theorem applyProjection_only_listed_fields :
    (∀ (ps : ProjectionSpec) (r : Record) (f : String),
        f ∈ (applyProjection ps r).map Prod.fst →
          f ∈ ps.map FieldSpec.field) ∧
      applyProjection demoProjection demoRecord =
        [("name", .str "x"), ("imageUrl", .str "https://cdn.example/x.jpg")] := by
  refine ⟨fun ps r f hf => ?_, rfl⟩
  obtain ⟨fv, hfv, rfl⟩ := List.mem_map.mp hf
  exact mem_applyProjection_field hfv

/-- Witness for C4: the name field of the scenario's projected record is
indeed listed in the scenario's projection spec. -/
theorem applyProjection_only_listed_fields_witness :
    "name" ∈ demoProjection.map FieldSpec.field :=
  applyProjection_only_listed_fields.1 demoProjection demoRecord "name"
    (by simp [demoProjection, demoRecord, applyProjection, applyFieldSpec])

/-- Claim C5: a successful fetchPage never returns more items than the
requested pageSize. -/
theorem fetchPage_items_length_le (cfg : ExporterConfig) (src : Source)
    (req : PageRequest) (proj : ProjectionSpec) (r : PageResult)
    (h : fetchPage cfg src req proj = .ok r) :
    r.items.length ≤ req.pageSize := by
  unfold fetchPage at h
  split at h
  · simp at h
  · split at h
    · simp at h
    · simp only [Except.ok.injEq] at h
      subst h
      simp only [List.length_map, fetchSlice]
      exact List.length_take_le _ _

/-- Witness for C5: the demo page holds 2 items at pageSize 2. -/
theorem fetchPage_items_length_le_witness : demoPage2.items.length ≤ 2 :=
  fetchPage_items_length_le defaultConfig demoSource ⟨2, 2, []⟩ demoProj
    demoPage2 (by rfl)

/-- Claim C7: a successful offset-mode fetchPage returns exactly the
projected slice fetched at offset `(page - 1) * pageSize`. -/
theorem fetchPage_fetches_offset_slice (cfg : ExporterConfig) (src : Source)
    (req : PageRequest) (proj : ProjectionSpec) (r : PageResult)
    (h : fetchPage cfg src req proj = .ok r) :
    r.items =
      (fetchSlice src req.filters ((req.page - 1) * req.pageSize)
        req.pageSize).map (applyProjection proj) := by
  unfold fetchPage at h
  split at h
  · simp at h
  · split at h
    · simp at h
    · simp only [Except.ok.injEq] at h
      subst h
      rfl

/-- Witness for C7: page 2 at pageSize 2 over the demo collection is the
slice at offset 2. -/
theorem fetchPage_fetches_offset_slice_witness :
    demoPage2.items = (fetchSlice demoSource [] 2 2).map (applyProjection demoProj) :=
  fetchPage_fetches_offset_slice defaultConfig demoSource ⟨2, 2, []⟩ demoProj
    demoPage2 (by rfl)

/-- Claim C8: fetchPage is deterministic in the backing data — two calls
with identical pageRequest and projectionSpec against sources whose
matching records coincide return identical PageResults (same items in the
same order, same hasMore, same echoed page, same totalCount). -/
theorem fetchPage_deterministic (cfg : ExporterConfig) (src1 src2 : Source)
    (req : PageRequest) (proj : ProjectionSpec)
    (h : matching src1 req.filters = matching src2 req.filters) :
    fetchPage cfg src1 req proj = fetchPage cfg src2 req proj := by
  unfold fetchPage fetchSlice countMatching
  rw [h]

/-- Witness for C8: adding a filtered-out archived record to the backing
source leaves the fetched page unchanged. -/
theorem fetchPage_deterministic_witness :
    fetchPage defaultConfig demoSrcA ⟨1, 2, demoFilter⟩ demoProj =
      fetchPage defaultConfig demoSrcB ⟨1, 2, demoFilter⟩ demoProj :=
  fetchPage_deterministic defaultConfig demoSrcA demoSrcB ⟨1, 2, demoFilter⟩
    demoProj (by rfl)

/-- Claim C10: the per-record projection of handler_good_example_2 is total
on records lacking a description: it completes without a JS error and the
projected shortDescription is undefined. -/
theorem goodExample2_total_without_description (docId : String)
    (data : Record) (h : List.lookup "description" data = none) :
    goodExample2Item docId data =
      .ok { id := .str docId,
            name := List.lookup "name" data,
            category := List.lookup "category" data,
            imageUrl := List.lookup "imageUrl" data,
            shortDescription := none } := by
  simp only [goodExample2Item, h, jsOptionalSubstring]
  rfl

/-- Witness for C10: a record with only a name and an imageUrl projects
without error and without a shortDescription. -/
theorem goodExample2_total_without_description_witness :
    goodExample2Item "doc1" demoNoDescription =
      .ok { id := .str "doc1", name := some (.str "Keys"), category := none,
            imageUrl := some (.str "https://cdn.example/keys.jpg"),
            shortDescription := none } :=
  goodExample2_total_without_description "doc1" demoNoDescription (by rfl)

/-- A valid request (positive page and pageSize, pageSize within the cap)
always succeeds, with the explicit result. -/
theorem fetchPage_ok_eq (cfg : ExporterConfig) (src : Source)
    (req : PageRequest) (proj : ProjectionSpec) (hp : 1 ≤ req.page)
    (hs : 1 ≤ req.pageSize) (hcap : req.pageSize ≤ cfg.cap) :
    fetchPage cfg src req proj =
      .ok { items := (fetchSlice src req.filters
              ((req.page - 1) * req.pageSize) req.pageSize).map
                (applyProjection proj),
            page := req.page, pageSize := req.pageSize,
            hasMore := (fetchSlice src req.filters
              ((req.page - 1) * req.pageSize) req.pageSize).length
                == req.pageSize,
            totalCount := some (countMatching src req.filters) } := by
  unfold fetchPage
  rw [if_neg (by omega), if_neg (by omega)]

/-- The page-collection loop, given enough fuel, returns exactly the
projected matching records from its starting offset onward. -/
theorem collectPages_eq_drop (cfg : ExporterConfig) (src : Source)
    (filters : List (String × Value)) (proj : ProjectionSpec) (s : Nat)
    (hs : 1 ≤ s) (hcap : s ≤ cfg.cap) :
    ∀ (fuel page : Nat), 1 ≤ page →
      countMatching src filters ≤ (page - 1) * s + fuel * s →
      collectPages cfg src filters proj s fuel page =
        ((matching src filters).map (applyProjection proj)).drop
          ((page - 1) * s) := by
  intro fuel
  induction fuel with
  | zero =>
    intro page hp hb
    have hlen :
        ((matching src filters).map (applyProjection proj)).length ≤
          (page - 1) * s := by
      simp only [List.length_map]
      simpa [countMatching] using hb
    rw [List.drop_eq_nil_of_le hlen]
    simp only [collectPages]
  | succ fuel ih =>
    intro page hp hb
    have hsucc : (page - 1) * s + s = page * s := by
      conv_rhs => rw [← Nat.sub_add_cancel hp]
      rw [Nat.succ_mul]
    rw [Nat.succ_mul] at hb
    simp only [collectPages,
      fetchPage_ok_eq cfg src ⟨page, s, filters⟩ proj hp hs hcap,
      fetchSlice]
    by_cases hlen :
        (((matching src filters).drop ((page - 1) * s)).take s).length = s
    · rw [if_pos (by simpa using hlen)]
      have hb' :
          countMatching src filters ≤ (page + 1 - 1) * s + fuel * s := by
        simp only [Nat.add_sub_cancel]
        omega
      rw [ih (page + 1) (by omega) hb']
      simp only [Nat.add_sub_cancel]
      rw [List.map_take, List.map_drop, ← hsucc]
      exact List.drop_take_append_drop _ _ _
    · rw [if_neg (by simpa using hlen)]
      rw [List.length_take] at hlen
      have hle : ((matching src filters).drop ((page - 1) * s)).length ≤ s := by
        omega
      rw [List.take_of_length_le hle, List.map_drop]

/-- Claim C6: with a stable order and unchanged backing data, concatenating
the items of every page from page 1 until hasMore is false yields exactly
the projected matching records — length countMatching, no record duplicated,
none missing. -/
theorem fetchAllPages_covers (cfg : ExporterConfig) (src : Source)
    (filters : List (String × Value)) (proj : ProjectionSpec) (s : Nat)
    (hs : 1 ≤ s) (hcap : s ≤ cfg.cap) :
    fetchAllPages cfg src filters proj s =
        (matching src filters).map (applyProjection proj) ∧
      (fetchAllPages cfg src filters proj s).length =
        countMatching src filters := by
  have hb : countMatching src filters ≤
      (1 - 1) * s + (countMatching src filters + 1) * s := by
    have h1 : countMatching src filters + 1 ≤
        (countMatching src filters + 1) * s :=
      Nat.le_mul_of_pos_right _ hs
    omega
  have h := collectPages_eq_drop cfg src filters proj s hs hcap
    (countMatching src filters + 1) 1 (le_refl 1) hb
  unfold fetchAllPages
  rw [h]
  simp [countMatching]

/-- Witness for C6: collecting all pages of the four-record demo collection
at pageSize 2 returns each record exactly once. -/
theorem fetchAllPages_covers_witness :
    fetchAllPages defaultConfig demoSource [] demoProj 2 =
        (matching demoSource []).map (applyProjection demoProj) ∧
      (fetchAllPages defaultConfig demoSource [] demoProj 2).length =
        countMatching demoSource [] :=
  fetchAllPages_covers defaultConfig demoSource [] demoProj 2 (by decide)
    (by decide)

/-- Escaping is the identity on the character `'a'`. -/
theorem escapeList_replicate_a (n : Nat) :
    escapeList (List.replicate n 'a') = List.replicate n 'a' := by
  have ha : escChar 'a' = ['a'] := rfl
  induction n with
  | zero => rfl
  | succ n ih => simp [List.replicate_succ, escapeList, ha, ih]

/-- A list of `n` repeated a-characters occupies `n` UTF-8 bytes. -/
theorem utf8Len_replicate_a (n : Nat) :
    utf8Len (List.replicate n 'a') = n := by
  have h1 : ('a').utf8Size = 1 := rfl
  induction n with
  | zero => rfl
  | succ n ih =>
    simp [List.replicate_succ, utf8Len, h1, ih]
    omega

/-- The serialized size of `bigString n` is exactly `n + 2` bytes. -/
theorem utf8Len_stringify_bigString (n : Nat) :
    utf8Len (stringify (bigString n)) = n + 2 := by
  have hq : ('"').utf8Size = 1 := rfl
  simp [bigString, stringify, utf8Len, utf8Len_append,
    escapeList_replicate_a, utf8Len_replicate_a, hq]
  omega

/-- Counterexample to C3 as stated: the size check's threshold is 4,718,592
bytes (the `sizeInMB > 4.5` test of src/example-fixes.js line 294, with
`sizeInMB = bytes / 2^20`), not 4,500,000 bytes — a value serializing to
4,600,000 bytes is above 4,500,000 yet is reported not exceeded. -/
theorem estimateSize_counterexample :
    4500000 < (estimateSize (bigString 4599998)).byteSize ∧
      (estimateSize (bigString 4599998)).exceeded = false := by
  have h := utf8Len_stringify_bigString 4599998
  constructor
  · simp only [estimateSize, estimateSizeWith, h]
    omega
  · simp only [estimateSize, estimateSizeWith, h, defaultThresholdBytes]
    decide

/-- Claim C3 (amended): estimateSize compares the UTF-8 byte length of the
serialized result against the default threshold 4,718,592 bytes (the code's
`sizeInMB > 4.5` check), and every already-materialized result whose
serialized size is 5,000,000 bytes is reported exceeded. -/
theorem estimateSize_exceeded_at_5MB (v : Value)
    (h : utf8Len (stringify v) = 5000000) :
    estimateSize v =
      { byteSize := 5000000, thresholdBytes := 4718592, exceeded := true } := by
  simp only [estimateSize, estimateSizeWith, h, defaultThresholdBytes]
  decide

/-- Witness for C3 (amended): a 5,000,000-byte payload is flagged. -/
theorem estimateSize_exceeded_at_5MB_witness :
    utf8Len (stringify (bigString 4999998)) = 5000000 ∧
      estimateSize (bigString 4999998) =
        { byteSize := 5000000, thresholdBytes := 4718592, exceeded := true } := by
  have h : utf8Len (stringify (bigString 4999998)) = 5000000 := by
    rw [utf8Len_stringify_bigString]
  exact ⟨h, estimateSize_exceeded_at_5MB _ h⟩

/-- Appending an array element cannot shorten the serialized tail. -/
theorem utf8Len_sepTail_append (l : List Value) (v : Value) :
    utf8Len (sepTail l) ≤ utf8Len (sepTail (l ++ [v])) := by
  induction l with
  | nil => simp [sepTail, utf8Len]
  | cons w ws ih =>
    simp only [List.cons_append, sepTail, utf8Len, utf8Len_append,
      List.append_eq]
    omega

/-- Appending an array element cannot shorten the serialized array body. -/
theorem utf8Len_stringifySep_append (l : List Value) (v : Value) :
    utf8Len (stringifySep l) ≤ utf8Len (stringifySep (l ++ [v])) := by
  cases l with
  | nil => simp [stringifySep, sepTail, utf8Len]
  | cons w ws =>
    simp only [List.cons_append, stringifySep, utf8Len_append,
      List.append_eq]
    have := utf8Len_sepTail_append ws v
    omega

/-- The byte size reported by the size check is the UTF-8 length of the
serialization. -/
theorem estimateSizeWith_byteSize (t : Nat) (v : Value) :
    (estimateSizeWith t v).byteSize = utf8Len (stringify v) := rfl

/-- Replacing the items array of a serialized object with one whose body
serialization is no shorter cannot shorten the whole serialization. -/
theorem utf8Len_stringify_obj_items (a b : List Value)
    (rest : List (String × Value))
    (h : utf8Len (stringifySep a) ≤ utf8Len (stringifySep b)) :
    utf8Len (stringify (.obj (("items", .arr a) :: rest))) ≤
      utf8Len (stringify (.obj (("items", .arr b) :: rest))) := by
  simp only [stringify, stringifyFields, fieldChars, List.append_eq,
    List.cons_append, List.nil_append, List.append_assoc, utf8Len,
    utf8Len_append]
  omega

/-- Claim C9: estimateSize is monotonic in record count for a fixed
projection — appending any record to a PageResult's items cannot decrease
the reported byteSize. -/
theorem estimateSize_monotone_in_items (pr : PageResult) (r : Record) :
    (estimateSize (pageResultToValue pr)).byteSize ≤
      (estimateSize (pageResultToValue
        { pr with items := pr.items ++ [r] })).byteSize := by
  simp only [estimateSize, estimateSizeWith_byteSize, pageResultToValue,
    List.map_append, List.map_cons, List.map_nil]
  exact utf8Len_stringify_obj_items _ _ _
    (utf8Len_stringifySep_append (pr.items.map recordToValue)
      (recordToValue r))
